import Mathlib

/-!
Verification of the MCP client connection manager of this repository
(src/src/lib/ai/mcp/create-mcp-client.ts and the manager / tool-id modules).

A JavaScript string is modelled as its list of characters (UTF-16 code
units).  All JavaScript functions are translated into pure Lean functions;
asynchronous remote interactions (transport open, remote list/call
operations, storage operations) are passed in as explicit environment
values describing the outcome of each awaited step, and the mutable fields
of the MCPClient / MCPClientsManager objects become explicit state records
threaded through each operation.
-/

namespace MCPSpec

/-- JavaScript string: sequence of code units.  Every unit outside the
sanitizer ASCII class is replaced by an underscore, so the exact unit
alphabet is immaterial to the functions modelled here. -/
abbrev JStr := List Char

/-- Membership in the regex class [a-zA-Z0-9_.-] used by
sanitizeFunctionName in src/unnamed/part_001 (mcp-tool-id module). -/
def isAllowedChar (c : Char) : Bool :=
  ('a' ≤ c && c ≤ 'z') || ('A' ≤ c && c ≤ 'Z') || ('0' ≤ c && c ≤ '9') ||
  c == '_' || c == '.' || c == '-'

/-- The test /^[a-zA-Z_]/ on the first character; false on the empty string. -/
def startsOk : JStr → Bool
  | [] => false
  | c :: _ => ('a' ≤ c && c ≤ 'z') || ('A' ≤ c && c ≤ 'Z') || c == '_'

/-- sanitizeFunctionName from src/unnamed/part_001:
replace every character outside [a-zA-Z0-9_.-] with an underscore, prepend
an underscore when the result does not start with a letter or underscore,
then truncate to 64 characters when longer. -/
def sanitizeFunctionName (name : JStr) : JStr :=
  let sanitized := name.map (fun c => if isAllowedChar c then c else '_')
  let sanitized := if startsOk sanitized then sanitized else '_' :: sanitized
  if sanitized.length > 64 then sanitized.take 64 else sanitized

/-- createMCPToolId from src/unnamed/part_001.  The source computes the
server portion as Math.floor((server.length / totalLength) * 63) in IEEE
double arithmetic; for every reachable pair of lengths (both between 1 and
64) that expression equals exact floor division (checked exhaustively), so
it is rendered here with natural-number division. -/
def createMCPToolId (serverName toolName : JStr) : JStr :=
  let sanitizedServer := sanitizeFunctionName serverName
  let sanitizedTool := sanitizeFunctionName toolName
  let maxLength := 64
  if sanitizedServer.length + sanitizedTool.length + 1 > maxLength then
    let totalLength := sanitizedServer.length + sanitizedTool.length
    let serverPortion := sanitizedServer.length * (maxLength - 1) / totalLength
    let toolPortion := maxLength - 1 - serverPortion
    sanitizedServer.take serverPortion ++ '_' :: sanitizedTool.take toolPortion
  else
    sanitizedServer ++ '_' :: sanitizedTool

/-- extractMCPToolId from src/unnamed/part_001: empty input or input with
no underscore maps to (input, empty); otherwise split on underscores, the
first fragment is the server name and the rest re-joined with underscores
is the tool name (equivalently, split at the first underscore). -/
def extractMCPToolId (toolId : JStr) : JStr × JStr :=
  if toolId.isEmpty || !(toolId.contains '_') then (toolId, [])
  else
    match toolId.splitOn '_' with
    | [] => (toolId, [])  -- unreachable: splitOn never returns the empty list
    | serverName :: rest => (serverName, List.intercalate ['_'] rest)

/-- Sanitization as worded by the specification (section 6), for the
refinement statement of claim C6. -/
def sanitizeFunctionName_fromSpec (name : JStr) : JStr :=
  let replaced := name.map (fun c => if isAllowedChar c then c else '_')
  let prefixed := if startsOk replaced then replaced else '_' :: replaced
  prefixed.take 64

/-- Tool-id derivation as worded by claim C6: sanitize both names, join
with an underscore; when the combined length exceeds 64, split the
63-character budget proportionally with floor division for the server
portion and the remainder for the tool portion, truncating each portion
before joining. -/
def createMCPToolId_fromSpec (serverName toolName : JStr) : JStr :=
  let ss := sanitizeFunctionName_fromSpec serverName
  let st := sanitizeFunctionName_fromSpec toolName
  if ss.length + st.length + 1 > 64 then
    let serverPortion := ss.length * 63 / (ss.length + st.length)
    let toolPortion := 63 - serverPortion
    ss.take serverPortion ++ '_' :: st.take toolPortion
  else
    ss ++ '_' :: st

/-- The intermediate value of sanitizeFunctionName before truncation:
the character-replaced string, with an underscore prepended when needed. -/
def sanitizeMid (s : JStr) : JStr :=
  let replaced := s.map (fun c => if isAllowedChar c then c else '_')
  if startsOk replaced then replaced else '_' :: replaced

/-!
### The MCPClient session state machine (create-mcp-client.ts)

Awaited remote interactions are passed in as environment values; the
mutable fields of the MCPClient object form the state record.  Observable
side effects (transport construction, transport open, timer scheduling,
kill signals, close attempts) are collected in an effect list.
-/

structure ToolDef where
  name : JStr
  description : JStr
  inputSchema : Nat
deriving DecidableEq

structure PromptArg where
  name : JStr
  description : Option JStr
  required : Bool
deriving DecidableEq

structure PromptDef where
  name : JStr
  description : JStr
  arguments : List PromptArg
deriving DecidableEq

deriving instance DecidableEq for Except

/-- Server configuration (app-types/mcp): stdio or sse variant; urlValid
records whether building a URL object from the configured url succeeds. -/
inductive ServerConfig
  | stdio (command : JStr) (args : List JStr)
  | sse (url : JStr) (urlValid : Bool)
  | unknown
deriving DecidableEq

/-- Duck-typing probe from is-mcp-config.ts. -/
def isMaybeStdioConfig : ServerConfig → Bool
  | .stdio _ _ => true
  | _ => false

/-- Duck-typing probe from is-mcp-config.ts. -/
def isMaybeSseConfig : ServerConfig → Bool
  | .sse _ _ => true
  | _ => false

structure ClientOptions where
  autoDisconnectSeconds : Option Nat := none
deriving DecidableEq

/-- Connection-phase errors recorded in the session error fields. -/
inductive ConnErr
  | stdioNotSupported
  | invalidConfig
  | invalidUrl
  | timeout30
  | transportFail (m : JStr)
  | toolList (m : JStr)
deriving DecidableEq

/-- Errors surfaced (thrown or rejected) by the session and manager
operations. -/
inductive MCPErr
  | conn (e : ConnErr)
  | capExhausted (last : Option ConnErr)
  | nullToolResult
  | remoteCall (m : JStr)
  | notConnected
  | remotePrompt (m : JStr)
  | clientNotFound (name : JStr)
  | promptNotFound (server pname : JStr)
  | storage (m : JStr)
deriving DecidableEq

/-- The mutable fields of an MCPClient instance. -/
structure SessState where
  name : JStr
  serverConfig : ServerConfig
  autoDisconnectSeconds : Option Nat
  isConnected : Bool
  client : Bool
  locked : Bool
  error : Option ConnErr
  connectionAttempts : Nat
  lastConnectionError : Option ConnErr
  lastConnectionTime : Nat
  toolInfo : List ToolDef
  tools : List (JStr × ToolDef)
  promptInfo : List PromptDef
  prompts : List JStr
deriving DecidableEq

/-- The MCPClient constructor.  A JS caller that omits the options argument
gets the default object with autoDisconnectSeconds 300 (five minutes, per
the source comment); an explicitly passed options object is used as-is,
even when empty. -/
def mkMCPClient (name : JStr) (serverConfig : ServerConfig)
    (options : Option ClientOptions) : SessState :=
  let opts := options.getD { autoDisconnectSeconds := some 300 }
  { name := name
    serverConfig := serverConfig
    autoDisconnectSeconds := opts.autoDisconnectSeconds
    isConnected := false
    client := false
    locked := false
    error := none
    connectionAttempts := 0
    lastConnectionError := none
    lastConnectionTime := 0
    toolInfo := []
    tools := []
    promptInfo := []
    prompts := [] }

/-- The createMCPClient factory.  Its options parameter defaults to the
empty object, which it always passes on, so the constructor default of 300
seconds never applies on this path. -/
def createMCPClient (name : JStr) (serverConfig : ServerConfig)
    (options : Option ClientOptions) : SessState :=
  mkMCPClient name serverConfig (some (options.getD {}))

/-- Status as computed by getInfo: loading while the lock is held, else
connected or disconnected from the flag. -/
inductive SessStatus
  | connected
  | disconnected
  | loading
deriving DecidableEq

def sessionStatus (s : SessState) : SessStatus :=
  if s.locked then .loading else if s.isConnected then .connected else .disconnected

/-- Observable side effects of session operations. -/
inductive Eff
  | connectCall
  | transportBuild
  | transportOpen
  | remoteGetPrompt
  | stateCleared
  | closeAttempt
  | killTerm
  | killKill
  | scheduleTimer (ms : Nat)
deriving DecidableEq

/-- scheduleAutoDisconnect: arms the idle-disconnect debounce timer when
the configured seconds value is truthy in JS (present and nonzero). -/
def scheduleAutoDisconnect (s : SessState) : List Eff :=
  match s.autoDisconnectSeconds with
  | some n => if n ≠ 0 then [Eff.scheduleTimer (n * 1000)] else []
  | none => []

/-- Outcome of transport construction in connect: stdio is rejected when
the server allows only sse transports, an unknown config shape is
rejected, and an sse config fails when its url does not parse. -/
def buildTransport (sseOnly : Bool) : ServerConfig → Except ConnErr Unit
  | .stdio _ _ => if sseOnly then .error .stdioNotSupported else .ok ()
  | .sse _ urlValid => if urlValid then .ok () else .error .invalidUrl
  | .unknown => .error .invalidConfig

/-- Outcome of racing client.connect against the 30-second timeout. -/
inductive RaceRes
  | ok
  | timeout
  | err (m : JStr)
deriving DecidableEq

/-- Environment of one connect call: the clock reading taken at entry and
the outcomes of the awaited remote steps. -/
structure ConnectEnv where
  now : Nat
  race : RaceRes
  listTools : Except JStr (List ToolDef)
  listPrompts : Except JStr (List PromptDef)
deriving DecidableEq

inductive ConnectOutcome
  | threw (e : MCPErr)
  | returned (client : Bool)
deriving DecidableEq

/-- Ghost record of one actual connection attempt (a connect call that
passed the attempt-cap check): its clock time and whether it failed before
the transport race completed successfully. -/
structure Attempt where
  time : Nat
  preRaceFail : Bool
deriving DecidableEq

structure ConnectRun where
  outcome : ConnectOutcome
  state : SessState
  effs : List Eff
  att : Option Attempt
deriving DecidableEq

/-- The catch block of connect: mark disconnected and store the error. -/
def connCatch (s : SessState) (e : ConnErr) : SessState :=
  { s with isConnected := false, error := some e, lastConnectionError := some e }

def unlockS (s : SessState) : SessState := { s with locked := false }

/-- Failure exit of connect: catch block, then the unlock that follows the
try/catch, returning the (unchanged) cached client field. -/
def connFailRun (s : SessState) (e : ConnErr) (effs : List Eff)
    (preRace : Bool) (now : Nat) : ConnectRun :=
  let s2 := unlockS (connCatch s e)
  { outcome := .returned s2.client
    state := s2
    effs := effs
    att := some { time := now, preRaceFail := preRace } }

/-- One actual connection attempt (the try block of connect, entered after
the attempt-cap check passed): increment the counter, record the attempt
time, lock, build the transport, race connect against the 30-second
timeout, list tools (an ordinary recorded failure on error — note that the
counter was already reset to zero at that point), list prompts (failure
tolerated), build the tool map and arm the idle timer. -/
def connectAttempt (sseOnly : Bool) (s0 : SessState) (env : ConnectEnv) :
    ConnectRun :=
  let s := { s0 with connectionAttempts := s0.connectionAttempts + 1
                     lastConnectionTime := env.now }
  let s := { s with locked := true }
  match buildTransport sseOnly s.serverConfig with
  | .error e => connFailRun s e [Eff.transportBuild] true env.now
  | .ok _ =>
    match env.race with
    | .timeout =>
        connFailRun s .timeout30 [Eff.transportBuild, Eff.transportOpen] true env.now
    | .err m =>
        connFailRun s (.transportFail m) [Eff.transportBuild, Eff.transportOpen] true env.now
    | .ok =>
      let s := { s with isConnected := true, error := none, client := true
                        connectionAttempts := 0 }
      match env.listTools with
      | .error m =>
          connFailRun s (.toolList m) [Eff.transportBuild, Eff.transportOpen] false env.now
      | .ok toolsResp =>
        let s := { s with toolInfo := toolsResp }
        let s := match env.listPrompts with
          | .ok ps =>
              { s with promptInfo := ps
                       prompts := ps.map (fun (p : PromptDef) => p.name) }
          | .error _ => s
        -- the source stores the wrapped tools in an object keyed by tool
        -- name; rendered as the association sequence in listing order
        let s := { s with tools := toolsResp.map (fun (t : ToolDef) => (t.name, t)) }
        { outcome := .returned s.client
          state := unlockS s
          effs := [Eff.transportBuild, Eff.transportOpen] ++ scheduleAutoDisconnect s
          att := some { time := env.now, preRaceFail := false } }

/-- The attempt-cap check of connect: throw (surfacing the last recorded
connection error, with no state change and no transport activity) when
five attempts are recorded, else run one attempt. -/
def connectGateCap (sseOnly : Bool) (s : SessState) (env : ConnectEnv) :
    ConnectRun :=
  if 5 ≤ s.connectionAttempts then
    { outcome := .threw (.capExhausted s.lastConnectionError)
      state := s
      effs := []
      att := none }
  else connectAttempt sseOnly s env

/-- The cooldown / reset / attempt-cap gate of connect, entered when the
session is not connected and the lock is free: after the cooldown sleep
(which changes no state), reset the counter when more than 60 seconds
passed since the last attempt, then run the cap check. -/
def connectGate (sseOnly : Bool) (s : SessState) (env : ConnectEnv) :
    ConnectRun :=
  connectGateCap sseOnly
    (if env.now - s.lastConnectionTime > 60000
      then { s with connectionAttempts := 0 } else s) env

/-- connect from create-mcp-client.ts.  Returns the cached client when
already connected; a caller finding the lock held waits and returns the
then-current client; otherwise the gate runs. -/
def connect (sseOnly : Bool) (s : SessState) (env : ConnectEnv) : ConnectRun :=
  if s.isConnected && s.client then
    { outcome := .returned s.client, state := s, effs := [], att := none }
  else if s.locked then
    { outcome := .returned s.client, state := s, effs := [], att := none }
  else connectGate sseOnly s env

/-- The first failing stage of a connect environment, mirroring the failure
classes named by the specification: transport construction error,
30-second connect timeout, transport-level error, tool-list failure. -/
def connFailure (sseOnly : Bool) (cfg : ServerConfig) (env : ConnectEnv) :
    Option ConnErr :=
  match buildTransport sseOnly cfg with
  | .error e => some e
  | .ok _ =>
    match env.race with
    | .timeout => some .timeout30
    | .err m => some (.transportFail m)
    | .ok =>
      match env.listTools with
      | .error m => some (.toolList m)
      | .ok _ => none

/-- Outcome of racing client.close against the 5-second timeout. -/
inductive CloseRes
  | ok
  | err (m : JStr)
  | hang
deriving DecidableEq

structure DiscEnv where
  close : CloseRes
  hasProcess : Bool
  termKilled : Bool
deriving DecidableEq

structure DiscRun where
  result : Except MCPErr Unit
  state : SessState
  effs : List Eff
deriving DecidableEq

/-- disconnect from create-mcp-client.ts: waits for the lock, locks, exits
early (clearing state) when already disconnected; otherwise clears the
connection flags and the cached handle first, resets the attempt counter,
sends kill signals for stdio transports behind a local catch, then races
close against a 5-second timeout with every rejection caught and logged.
The lock is released in a finally block; no path rethrows, so the close
outcome in the environment never influences the result. -/
def disconnect (s : SessState) (env : DiscEnv) : DiscRun :=
  let s := { s with locked := true }
  if !s.isConnected || !s.client then
    { result := .ok ()
      state := { s with isConnected := false, client := false, locked := false }
      effs := [] }
  else
    let s := { s with isConnected := false, client := false }
    let s := { s with connectionAttempts := 0 }
    let killEffs :=
      if isMaybeStdioConfig s.serverConfig && env.hasProcess then
        Eff.killTerm :: (if env.termKilled then [] else [Eff.killKill])
      else []
    { result := .ok ()
      state := { s with locked := false }
      effs := [Eff.stateCleared] ++ killEffs ++ [Eff.closeAttempt] }

/-- Outcome of the remote tool invocation. -/
inductive ToolCallRes
  | ok (isError : Bool) (content : JStr)
  | nullRes
  | err (m : JStr)
deriving DecidableEq

structure ToolCallRun where
  result : Except MCPErr (Bool × JStr)
  state : SessState
  effs : List Eff
deriving DecidableEq

/-- callTool from create-mcp-client.ts rendered through the ts-safe chain:
the map step runs connect and the optional-chained remote call, the first
ifOk throws on a null value, the second ifOk (reached only when the chain
is still ok) re-arms the idle timer, the watch step only logs (an isError
result is logged, not failed), and unwrap returns the value or rethrows
the chain error. -/
def callTool (sseOnly : Bool) (s : SessState) (toolName : JStr)
    (cenv : ConnectEnv) (callRes : ToolCallRes) : ToolCallRun :=
  let r := connect sseOnly s cenv
  match r.outcome with
  | .threw e =>
      { result := .error e, state := r.state, effs := Eff.connectCall :: r.effs }
  | .returned cl =>
    if cl then
      match callRes with
      | .err m =>
          { result := .error (.remoteCall m), state := r.state
            effs := Eff.connectCall :: r.effs }
      | .nullRes =>
          { result := .error .nullToolResult, state := r.state
            effs := Eff.connectCall :: r.effs }
      | .ok isErr content =>
          { result := .ok (isErr, content), state := r.state
            effs := Eff.connectCall :: r.effs ++ scheduleAutoDisconnect r.state }
    else
      { result := .error .nullToolResult, state := r.state
        effs := Eff.connectCall :: r.effs }

structure PromptRun where
  result : Except MCPErr JStr
  effs : List Eff
deriving DecidableEq

/-- getPrompt from create-mcp-client.ts: throws immediately when the cached
client is absent or the connected flag is down, with no implicit connect;
otherwise forwards the name to the remote peer without consulting the
local prompt map and rethrows remote failures. -/
def getPrompt (s : SessState) (promptName : JStr)
    (env : Except JStr JStr) : PromptRun :=
  if !s.client || !s.isConnected then
    { result := .error .notConnected, effs := [] }
  else
    match env with
    | .ok r => { result := .ok r, effs := [Eff.remoteGetPrompt] }
    | .error m => { result := .error (.remotePrompt m), effs := [Eff.remoteGetPrompt] }

/-!
### Session traces

A session history is a list of connect and disconnect calls with their
environments, run from a freshly constructed client.  Alongside the state,
the run collects the ghost log of actual connection attempts, which the
attempt-cap analysis of connect is stated against.
-/

inductive Ev
  | conn (env : ConnectEnv)
  | disc (env : DiscEnv)
deriving DecidableEq

def stepEv (sseOnly : Bool) (acc : SessState × List Attempt) (ev : Ev) :
    SessState × List Attempt :=
  match ev with
  | .conn env =>
      let r := connect sseOnly acc.1 env
      (r.state, acc.2 ++ r.att.toList)
  | .disc env => ((disconnect acc.1 env).state, acc.2)

/-- Run a session history, collecting the ghost attempt log. -/
def runTrace (sseOnly : Bool) (s0 : SessState) (evs : List Ev) :
    SessState × List Attempt :=
  evs.foldl (stepEv sseOnly) (s0, [])

/-- Length of the trailing run of connection attempts that failed before
the transport race succeeded, newest attempt first, broken by any attempt
that reached the transport race successfully and by any gap of more than
60 seconds between consecutive attempts. -/
def failStreak : List Attempt → Nat
  | [] => 0
  | [a] => if a.preRaceFail then 1 else 0
  | a :: b :: rest =>
    if a.preRaceFail then
      (if a.time - b.time ≤ 60000 then failStreak (b :: rest) + 1 else 1)
    else 0

/-- Clock time of the most recent attempt in a chronological log, zero when
no attempt happened yet (matching the initial lastConnectionTime). -/
def lastAttemptTime (log : List Attempt) : Nat :=
  match log.getLast? with
  | some a => a.time
  | none => 0

/-- Scanning the effect list from the start: the state-cleared marker comes
before any close attempt. -/
def clearedBeforeClose : List Eff → Bool
  | [] => true
  | Eff.closeAttempt :: _ => false
  | Eff.stateCleared :: _ => true
  | _ :: rest => clearedBeforeClose rest

/-- Result of callTool as described by the amended claim C5: the error
thrown by connect propagates, a missing client handle or a null remote
result fails with the explicit null error, a remote rejection fails, and a
result object is returned as a success even when it is marked isError. -/
def callToolExpected (sseOnly : Bool) (s : SessState) (cenv : ConnectEnv)
    (callRes : ToolCallRes) : Except MCPErr (Bool × JStr) :=
  match (connect sseOnly s cenv).outcome with
  | .threw e => .error e
  | .returned false => .error .nullToolResult
  | .returned true =>
    match callRes with
    | .nullRes => .error .nullToolResult
    | .err m => .error (.remoteCall m)
    | .ok isErr content => .ok (isErr, content)

/-- Invariant tying a session state to its ghost attempt log: the lock is
free between operations, the attempt counter equals the trailing streak of
pre-race failures (which never exceeds five), the recorded last connection
time is the time of the most recent attempt, and a connected session has a
zero streak. -/
def ConnInv (s : SessState) (log : List Attempt) : Prop :=
  s.locked = false ∧
  s.connectionAttempts = failStreak log.reverse ∧
  failStreak log.reverse ≤ 5 ∧
  s.lastConnectionTime = lastAttemptTime log ∧
  (s.isConnected = true → failStreak log.reverse = 0)

/-!
### The MCPClientsManager registry (src/unnamed/part_001)

The manager owns an insertion-ordered map from server name to session and
a process-wide refreshing flag.  Storage operation outcomes and each
embedded session operation environment are threaded in explicitly.
-/

structure Manager where
  clients : List (JStr × SessState)
  hasStorage : Bool
  isRefreshing : Bool
deriving DecidableEq

/-- JS Map.set: update in place when the key exists, else append. -/
def mapSet (m : List (JStr × SessState)) (k : JStr) (v : SessState) :
    List (JStr × SessState) :=
  if m.any (fun p => p.1 == k) then
    m.map (fun p => if p.1 == k then (k, v) else p)
  else m ++ [(k, v)]

/-- JS Map.delete. -/
def mapDelete (m : List (JStr × SessState)) (k : JStr) :
    List (JStr × SessState) :=
  m.filter (fun p => !(p.1 == k))

structure PromptEntry where
  name : JStr
  description : JStr
  arguments : List PromptArg
  serverName : JStr
deriving DecidableEq

/-- tools() of MCPClientsManager: the association list handed to
Object.fromEntries — every tool entry of every connected session, keyed by
createMCPToolId of the session name and the tool name. -/
def toolEntries (m : Manager) : List (JStr × ToolDef) :=
  ((m.clients.map Prod.snd).filter
      (fun c => sessionStatus c == SessStatus.connected)).flatMap
    (fun c => c.tools.map
      (fun (p : JStr × ToolDef) => (createMCPToolId c.name p.1, p.2)))

/-- prompts() of MCPClientsManager: every promptInfo entry of every
connected session, keyed by the session name, a slash, and the prompt
name. -/
def promptEntries (m : Manager) : List (JStr × PromptEntry) :=
  ((m.clients.map Prod.snd).filter
      (fun c => sessionStatus c == SessStatus.connected)).flatMap
    (fun c => c.promptInfo.map (fun (p : PromptDef) =>
      (c.name ++ '/' :: p.name,
       { name := p.name
         description := p.description
         arguments := p.arguments
         serverName := c.name })))

/-- Object.fromEntries as a lookup: later entries win on key collision. -/
def fromEntries {α : Type} (l : List (JStr × α)) (k : JStr) : Option α :=
  l.reverse.lookup k

def managerTools (m : Manager) : JStr → Option ToolDef :=
  fromEntries (toolEntries m)

def managerPrompts (m : Manager) : JStr → Option PromptEntry :=
  fromEntries (promptEntries m)

/-- Return value of addClient: the fast path returns the existing session
object, the connect path resolves to the inner client handle. -/
inductive AddOk
  | existingClient (sess : SessState)
  | connected (client : Bool)
deriving DecidableEq

structure AddEnv where
  hasRes : Except JStr Bool
  saveRes : Except JStr Unit
  discPrev : DiscEnv
  connectEnv : ConnectEnv
deriving DecidableEq

/-- Body of addClient past the fast path.  The storage step runs
storage.has and, when that reports the name absent, storage.save; a
failure of either reaches the catch, which removes the map entry for the
name and rethrows.  The final return of client.connect() is a promise
returned without await, so a rejection there bypasses the catch entirely
(standard JS semantics of returning a promise from inside try). -/
def addClientMain (sseOnly : Bool) (m : Manager) (name : JStr)
    (cfg : ServerConfig) (env : AddEnv) (existing : Option SessState) :
    Except MCPErr AddOk × Manager :=
  let storageStep : Except JStr Unit :=
    if m.hasStorage then
      match env.hasRes with
      | .error e => .error e
      | .ok true => .ok ()
      | .ok false => env.saveRes
    else .ok ()
  match storageStep with
  | .error e => (.error (.storage e), { m with clients := mapDelete m.clients name })
  | .ok _ =>
    let m := match existing with
      | some ec =>
          let dr := disconnect ec env.discPrev
          { m with clients := mapDelete (mapSet m.clients name dr.state) name }
      | none => m
    let newClient := createMCPClient name cfg
      (some { autoDisconnectSeconds := some 3600 })
    let m := { m with clients := mapSet m.clients name newClient }
    let r := connect sseOnly newClient env.connectEnv
    let m := { m with clients := mapSet m.clients name r.state }
    match r.outcome with
    | .threw e => (.error e, m)
    | .returned cl => (.ok (.connected cl), m)

/-- addClient from the manager: fast no-op path when the name is registered
with an equal config and a connected status, else the main body. -/
def addClient (sseOnly : Bool) (m : Manager) (name : JStr)
    (cfg : ServerConfig) (env : AddEnv) : Except MCPErr AddOk × Manager :=
  match m.clients.lookup name with
  | some ec =>
    if ec.serverConfig == cfg && sessionStatus ec == SessStatus.connected then
      (.ok (.existingClient ec), m)
    else addClientMain sseOnly m name cfg env (some ec)
  | none => addClientMain sseOnly m name cfg env none

inductive RefreshOk
  | deferred (sess : Option SessState)
  | unchanged (sess : SessState)
  | fromAdd (r : AddOk)
deriving DecidableEq

structure RefreshEnv where
  saveRes : Except JStr Unit
  discPrev : DiscEnv
  addEnv : AddEnv
deriving DecidableEq

/-- refreshClient from the manager.  Defers (returning the current entry
for the name) when another refresh is in progress; fails when the name is
unknown; skips when the config is unchanged and the session connected;
otherwise saves a changed config, disconnects and recreates through
addClient.  Both return this.addClient(...) statements return a promise
without awaiting it, so a rejection of addClient bypasses the inner catch
— the catch (and its re-insertion of the previous session) runs only for
a failure of the refresh-level save — while the finally block still
releases the refreshing flag on every path. -/
def refreshClient (sseOnly : Bool) (m : Manager) (name : JStr)
    (updateConfig : Option ServerConfig) (env : RefreshEnv) :
    Except MCPErr RefreshOk × Manager :=
  if m.isRefreshing then
    (.ok (.deferred (m.clients.lookup name)), m)
  else
    let m := { m with isRefreshing := true }
    match m.clients.lookup name with
    | none => (.error (.clientNotFound name), { m with isRefreshing := false })
    | some prev =>
      let cfg := updateConfig.getD prev.serverConfig
      if prev.serverConfig == cfg && sessionStatus prev == SessStatus.connected then
        (.ok (.unchanged prev), { m with isRefreshing := false })
      else
        let saveStep : Except JStr Unit :=
          if m.hasStorage && !(prev.serverConfig == cfg) then env.saveRes
          else .ok ()
        match saveStep with
        | .error e =>
            let m := if (m.clients.lookup name).isSome then m
              else { m with clients := mapSet m.clients name prev }
            (.error (.storage e), { m with isRefreshing := false })
        | .ok _ =>
          if sessionStatus prev == SessStatus.connected
              || !(prev.serverConfig == cfg) then
            let dr := disconnect prev env.discPrev
            let m := { m with clients := mapSet m.clients name dr.state }
            let r := addClient sseOnly m name cfg env.addEnv
            (r.1.map RefreshOk.fromAdd, { r.2 with isRefreshing := false })
          else
            let m := { m with clients := mapDelete m.clients name }
            let r := addClient sseOnly m name cfg env.addEnv
            (r.1.map RefreshOk.fromAdd, { r.2 with isRefreshing := false })

/-- executePrompt from the manager: unknown server name and unknown prompt
name fail synchronously; otherwise the prompt closure delegates to the
owning session. -/
def executePrompt (m : Manager) (serverName promptName : JStr)
    (env : Except JStr JStr) : Except MCPErr JStr :=
  match m.clients.lookup serverName with
  | none => .error (.clientNotFound serverName)
  | some c =>
    if promptName ∈ c.prompts then (getPrompt c promptName env).result
    else .error (.promptNotFound serverName promptName)

/-!
### Concrete inputs for the counterexamples
-/

def demoCfg : ServerConfig := .sse "u".toList true

def demoClient : SessState := mkMCPClient "a".toList demoCfg none

/-- A session in the connected state with an armed idle-timer configuration
and no prompts. -/
def demoConnected : SessState :=
  { demoClient with isConnected := true, client := true }

/-- Connect environment whose transport race succeeds and whose tool
listing then fails. -/
def toolListFailEnv (t : Nat) : ConnectEnv :=
  { now := t
    race := .ok
    listTools := .error "boom".toList
    listPrompts := .ok [] }

/-- Five consecutive connect calls, ten seconds apart, each reaching the
server and then failing at tool listing. -/
def fiveToolListFailures : List Ev :=
  [.conn (toolListFailEnv 0), .conn (toolListFailEnv 10000),
   .conn (toolListFailEnv 20000), .conn (toolListFailEnv 30000),
   .conn (toolListFailEnv 40000)]

/-- A sixth connect environment shortly after the fifth failure, failing at
the 30-second race. -/
def sixthEnv : ConnectEnv :=
  { now := 50000, race := .timeout, listTools := .ok [], listPrompts := .ok [] }

/-- A successful connect environment. -/
def successEnv : ConnectEnv :=
  { now := 0, race := .ok, listTools := .ok [], listPrompts := .ok [] }

/-- Manager holding one disconnected session under the name a, with
storage configured. -/
def demoManager : Manager :=
  { clients := [("a".toList, demoClient)], hasStorage := true, isRefreshing := false }

/-- Refresh environment in which the embedded addClient finds no storage
row for the name and its storage.save then fails. -/
def demoRefreshEnv : RefreshEnv :=
  { saveRes := .ok ()
    discPrev := { close := .ok, hasProcess := false, termKilled := true }
    addEnv :=
      { hasRes := .ok false
        saveRes := .error "db down".toList
        discPrev := { close := .ok, hasProcess := false, termKilled := true }
        connectEnv := successEnv } }

/-!
### Claim theorems
-/

theorem sanitize_eq_take (s : JStr) :
    sanitizeFunctionName s = (sanitizeMid s).take 64 := by
  unfold sanitizeFunctionName sanitizeMid
  simp only
  set mid := if startsOk (s.map fun c => if isAllowedChar c then c else '_')
      then s.map (fun c => if isAllowedChar c then c else '_')
      else '_' :: s.map (fun c => if isAllowedChar c then c else '_') with hmid
  split
  · rfl
  · rename_i h
    exact (List.take_of_length_le (by omega)).symm

theorem sanitizeMid_chars_allowed (s : JStr) :
    ∀ c ∈ sanitizeMid s, isAllowedChar c = true := by
  intro c hc
  have base : ∀ x ∈ s.map (fun c => if isAllowedChar c then c else '_'),
      isAllowedChar x = true := by
    intro x hx
    rcases List.mem_map.mp hx with ⟨y, _, rfl⟩
    by_cases h : isAllowedChar y
    · rwa [if_pos h]
    · rw [if_neg h]
      decide
  unfold sanitizeMid at hc
  simp only at hc
  split at hc
  · exact base c hc
  · rcases List.mem_cons.mp hc with h1 | h1
    · subst h1
      decide
    · exact base c h1

theorem sanitizeMid_startsOk (s : JStr) :
    startsOk (sanitizeMid s) = true := by
  unfold sanitizeMid
  simp only
  split
  · assumption
  · rfl

theorem sanitize_chars_allowed (s : JStr) :
    ∀ c ∈ sanitizeFunctionName s, isAllowedChar c = true := by
  intro c hc
  rw [sanitize_eq_take] at hc
  exact sanitizeMid_chars_allowed s c (List.take_subset _ _ hc)

theorem startsOk_take (n : Nat) (hn : n ≠ 0) (l : JStr) :
    startsOk (l.take n) = startsOk l := by
  cases l with
  | nil => simp
  | cons c rest =>
      cases n with
      | zero => exact absurd rfl hn
      | succ m => rfl

theorem sanitize_startsOk (s : JStr) :
    startsOk (sanitizeFunctionName s) = true := by
  rw [sanitize_eq_take, startsOk_take 64 (by decide)]
  exact sanitizeMid_startsOk s

theorem sanitize_length_le (s : JStr) :
    (sanitizeFunctionName s).length ≤ 64 := by
  rw [sanitize_eq_take]
  exact List.length_take_le 64 _

theorem sanitize_ne_nil (s : JStr) : sanitizeFunctionName s ≠ [] := by
  intro h
  have := sanitize_startsOk s
  rw [h] at this
  exact absurd this (by decide)

/-- C10: sanitizeFunctionName is idempotent; every output already contains
only characters in [A-Za-z0-9_.-], starts with a letter or underscore, and
has length at most 64, so a second pass changes nothing. -/
theorem sanitizeFunctionName_idempotent :
    ∀ s : JStr,
      sanitizeFunctionName (sanitizeFunctionName s) = sanitizeFunctionName s ∧
      (∀ c ∈ sanitizeFunctionName s, isAllowedChar c = true) ∧
      startsOk (sanitizeFunctionName s) = true ∧
      (sanitizeFunctionName s).length ≤ 64 := by
  intro s
  refine ⟨?_, sanitize_chars_allowed s, sanitize_startsOk s, sanitize_length_le s⟩
  have hchars := sanitize_chars_allowed s
  have hstart := sanitize_startsOk s
  have hlen := sanitize_length_le s
  set t := sanitizeFunctionName s with ht
  have hmap : t.map (fun c => if isAllowedChar c then c else '_') = t := by
    have h : ∀ c ∈ t, (fun c => if isAllowedChar c then c else '_') c = id c := by
      intro c hc
      simp only [id]
      exact if_pos (hchars c hc)
    rw [List.map_congr_left h, List.map_id]
  have hmid : sanitizeMid t = t := by
    unfold sanitizeMid
    simp only
    rw [hmap, if_pos hstart]
  rw [sanitize_eq_take, hmid]
  exact List.take_of_length_le hlen

/-- C6: createMCPToolId sanitizes each name independently, joins the two
sanitized strings with an underscore, splits the 63-character budget
proportionally (floor division for the server portion, remainder to the
tool portion) when the combined length exceeds 64, and never returns more
than 64 characters. -/
theorem createMCPToolId_correct :
    ∀ s t : JStr,
      createMCPToolId s t = createMCPToolId_fromSpec s t ∧
      (createMCPToolId s t).length ≤ 64 := by
  intro s t
  have hspec_sanitize : ∀ u : JStr,
      sanitizeFunctionName_fromSpec u = sanitizeFunctionName u := by
    intro u
    unfold sanitizeFunctionName_fromSpec sanitizeFunctionName
    simp only
    set mid := if startsOk (u.map fun c => if isAllowedChar c then c else '_')
        then u.map (fun c => if isAllowedChar c then c else '_')
        else '_' :: u.map (fun c => if isAllowedChar c then c else '_')
    split
    · rfl
    · rename_i h
      exact List.take_of_length_le (by omega)
  constructor
  · unfold createMCPToolId createMCPToolId_fromSpec
    simp only [hspec_sanitize]
  · unfold createMCPToolId
    simp only
    set a := (sanitizeFunctionName s).length with ha
    set b := (sanitizeFunctionName t).length with hb
    split
    · rename_i h
      have hp : a * (64 - 1) / (a + b) ≤ 63 := by
        have h1 : a * 63 ≤ (a + b) * 63 := by
          have : a ≤ a + b := Nat.le_add_right a b
          exact Nat.mul_le_mul_right 63 this
        rcases Nat.eq_zero_or_pos (a + b) with hz | hpos
        · simp [hz]
        · calc a * (64 - 1) / (a + b) ≤ (a + b) * 63 / (a + b) := by
                exact Nat.div_le_div_right (by simpa using h1)
            _ = 63 := by
                rw [Nat.mul_comm]
                exact Nat.mul_div_cancel 63 hpos
      have hl1 : ((sanitizeFunctionName s).take (a * (64 - 1) / (a + b))).length
          ≤ a * (64 - 1) / (a + b) := by
        simpa using List.length_take_le _ _
      have hl2 : ((sanitizeFunctionName t).take
          (64 - 1 - a * (64 - 1) / (a + b))).length
          ≤ 64 - 1 - a * (64 - 1) / (a + b) := by
        simpa using List.length_take_le _ _
      simp only [List.length_append, List.length_cons]
      omega
    · rename_i h
      simp only [List.length_append, List.length_cons]
      omega

/-- C7: the round-trip example: createMCPToolId on weather-server and
get_forecast yields weather-server_get_forecast, extraction recovers the
pair, extraction splits at the first underscore, and an input without an
underscore yields the whole string as server name with an empty tool
name. -/
theorem toolId_roundtrip_weather :
    createMCPToolId "weather-server".toList "get_forecast".toList
        = "weather-server_get_forecast".toList ∧
    extractMCPToolId "weather-server_get_forecast".toList
        = ("weather-server".toList, "get_forecast".toList) ∧
    (∀ tid : JStr, '_' ∉ tid → extractMCPToolId tid = (tid, [])) ∧
    (∀ pre post : JStr, '_' ∉ pre →
        extractMCPToolId (pre ++ '_' :: post) = (pre, post)) := by
  refine ⟨by decide, by decide, ?_, ?_⟩
  · intro tid h
    have hcond : (tid.isEmpty || !(tid.contains '_')) = true := by
      simp [h]
    unfold extractMCPToolId
    rw [if_pos hcond]
  · intro pre post h
    have hsplit : (pre ++ '_' :: post).splitOn '_' = pre :: post.splitOn '_' := by
      simp only [List.splitOn]
      refine List.splitOnP_first (· == '_') pre ?_ '_' ?_ post
      · intro x hx hbeq
        have hx' : x = '_' := by simpa using hbeq
        subst hx'
        exact h hx
      · rfl
    have hcond :
        ¬(((pre ++ '_' :: post).isEmpty || !((pre ++ '_' :: post).contains '_')) = true) := by
      simp
    unfold extractMCPToolId
    rw [if_neg hcond, hsplit]
    show (pre, List.intercalate ['_'] (post.splitOn '_')) = (pre, post)
    rw [@List.intercalate_splitOn _ post '_' _]

/-- Witness for the universally quantified parts of C7 at concrete inputs. -/
theorem toolId_roundtrip_weather_witness :
    extractMCPToolId "abc".toList = ("abc".toList, []) ∧
    extractMCPToolId ("ab".toList ++ '_' :: "cd".toList)
        = ("ab".toList, "cd".toList) :=
  ⟨toolId_roundtrip_weather.2.2.1 "abc".toList (by decide),
   toolId_roundtrip_weather.2.2.2 "ab".toList "cd".toList (by decide)⟩

/-- C2: disconnect never propagates an error, always leaves the session
disconnected with the cached handle cleared, and performs the status flip
and handle clearing before any close attempt. -/
theorem disconnect_always_clears :
    ∀ (s : SessState) (env : DiscEnv),
      (disconnect s env).result = .ok () ∧
      (disconnect s env).state.isConnected = false ∧
      (disconnect s env).state.client = false ∧
      sessionStatus (disconnect s env).state = .disconnected ∧
      clearedBeforeClose (disconnect s env).effs = true := by
  intro s env
  unfold disconnect
  by_cases h : (!s.isConnected || !s.client) = true
  · simp [h, sessionStatus, clearedBeforeClose]
  · simp [h, sessionStatus, clearedBeforeClose]

/-- C5 counterexample: on an already connected session with an armed idle
timer configuration, a remote result marked as an error is returned as a
success (the claim says the call fails), and a failed call leaves the
effect list without any timer rescheduling (the claim says the timer is
rescheduled on failure as well). -/
theorem callTool_counterexample :
    demoConnected.autoDisconnectSeconds = some 300 ∧
    (callTool false demoConnected "t".toList successEnv
        (ToolCallRes.ok true "bad".toList)).result
      = .ok (true, "bad".toList) ∧
    (callTool false demoConnected "t".toList successEnv
        (ToolCallRes.err "x".toList)).effs = [Eff.connectCall] := by
  decide

/-- C5 (amended): callTool runs connect first, fails on a thrown connect
error, a missing client handle or a null result, fails on a remote
rejection, returns a result object unchanged even when marked isError, and
re-arms the idle timer exactly on chain success (in addition to any timer
armed by connect itself). -/
theorem callTool_behaviour :
    ∀ (sseOnly : Bool) (s : SessState) (tn : JStr) (cenv : ConnectEnv)
      (callRes : ToolCallRes),
      (callTool sseOnly s tn cenv callRes).result
          = callToolExpected sseOnly s cenv callRes ∧
      (callTool sseOnly s tn cenv callRes).state = (connect sseOnly s cenv).state ∧
      (callTool sseOnly s tn cenv callRes).effs
          = Eff.connectCall :: ((connect sseOnly s cenv).effs ++
            (if (callToolExpected sseOnly s cenv callRes).isOk
             then scheduleAutoDisconnect (connect sseOnly s cenv).state else [])) := by
  intro sseOnly s tn cenv callRes
  unfold callTool callToolExpected
  rcases h : (connect sseOnly s cenv).outcome with e | cl
  · simp [h, Except.isOk, Except.toBool]
  · cases cl <;> cases callRes <;> simp [h, Except.isOk, Except.toBool]

/-- C9 counterexample: a successful connect on a directly constructed
client without options arms a 300-second timer (not one hour), and through
the createMCPClient factory without options no timer is armed at all. -/
theorem autoDisconnect_default_counterexample :
    Eff.scheduleTimer (300 * 1000) ∈ (connect false demoClient successEnv).effs ∧
    Eff.scheduleTimer (3600 * 1000) ∉ (connect false demoClient successEnv).effs ∧
    (connect false (createMCPClient "a".toList demoCfg none) successEnv).effs
      = [Eff.transportBuild, Eff.transportOpen] := by
  decide

/-- C9 (amended): on every successful connect, a client constructed
directly without an options argument arms the idle timer with the
300-second constructor default, while a client obtained from the
createMCPClient factory without options arms no timer, because the factory
always passes an options object and so suppresses the constructor
default. -/
theorem autoDisconnect_default_behaviour :
    ∀ (sseOnly : Bool) (nm : JStr) (cfg : ServerConfig) (env : ConnectEnv),
      connFailure sseOnly cfg env = none →
      (Eff.scheduleTimer (300 * 1000) ∈
          (connect sseOnly (mkMCPClient nm cfg none) env).effs ∧
       ∀ d, Eff.scheduleTimer d ∉
          (connect sseOnly (createMCPClient nm cfg none) env).effs) := by
  intro sseOnly nm cfg env h
  unfold connFailure at h
  rcases hb : buildTransport sseOnly cfg with e | u
  · rw [hb] at h
    simp at h
  · rw [hb] at h
    rcases hr : env.race with _ | _ | m
    all_goals rw [hr] at h
    · rcases ht : env.listTools with m | ts
      all_goals rw [ht] at h
      · simp at h
      · constructor
        · rcases hp : env.listPrompts with pm | ps <;>
            simp [connect, connectGate, connectGateCap, connectAttempt,
              mkMCPClient, hb, hr, ht, hp, scheduleAutoDisconnect]
        · intro d
          rcases hp : env.listPrompts with pm | ps <;>
            simp [connect, connectGate, connectGateCap, connectAttempt,
              createMCPClient, mkMCPClient, hb, hr, ht, hp,
              scheduleAutoDisconnect]
    · simp at h
    · simp at h

/-- Witness for C9 (amended) at a concrete successful environment. -/
theorem autoDisconnect_default_behaviour_witness :
    Eff.scheduleTimer (300 * 1000) ∈
        (connect false (mkMCPClient "a".toList demoCfg none) successEnv).effs ∧
    ∀ d, Eff.scheduleTimer d ∉
        (connect false (createMCPClient "a".toList demoCfg none) successEnv).effs :=
  autoDisconnect_default_behaviour false "a".toList demoCfg successEnv (by decide)

/-- C8 counterexample: a connected session with an empty prompt map still
returns a remote success from getPrompt for a prompt name it does not
have, so getPrompt itself does not fail on a missing prompt. -/
theorem getPrompt_counterexample :
    demoConnected.prompts = [] ∧
    (getPrompt demoConnected "p".toList (.ok "r".toList)).result
      = .ok "r".toList := by
  decide

/-- C8 (amended): getPrompt fails immediately with no implicit connect
when the session is not connected; the missing-prompt failure is enforced
one level up, by the manager executePrompt, which fails when the named
session lacks the prompt. -/
theorem getPrompt_requires_connected :
    ∀ (s : SessState) (pname : JStr) (env : Except JStr JStr) (m : Manager)
      (sname : JStr),
      (s.locked = false → sessionStatus s ≠ .connected →
        (getPrompt s pname env).result = .error .notConnected ∧
        (getPrompt s pname env).effs = []) ∧
      (∀ c : SessState, m.clients.lookup sname = some c → pname ∉ c.prompts →
        executePrompt m sname pname env
          = .error (.promptNotFound sname pname)) := by
  intro s pname env m sname
  constructor
  · intro hl hs
    have hcond : (!s.client || !s.isConnected) = true := by
      by_cases hc : s.isConnected
      · exact absurd (by simp [sessionStatus, hl, hc]) hs
      · simp [hc]
    constructor
    · unfold getPrompt
      rw [if_pos hcond]
    · unfold getPrompt
      rw [if_pos hcond]
  · intro c hc hnp
    unfold executePrompt
    rw [hc]
    simp [hnp]

/-- Witness for C8 (amended) at concrete inputs. -/
theorem getPrompt_requires_connected_witness :
    (getPrompt demoClient "p".toList (.ok "r".toList)).result
        = .error .notConnected ∧
    executePrompt demoManager "a".toList "p".toList (.ok "r".toList)
        = .error (.promptNotFound "a".toList "p".toList) :=
  ⟨((getPrompt_requires_connected demoClient "p".toList (.ok "r".toList)
      demoManager "a".toList).1 (by decide) (by decide)).1,
   (getPrompt_requires_connected demoClient "p".toList (.ok "r".toList)
      demoManager "a".toList).2 demoClient (by decide) (by decide)⟩

/-- C4 (code evidence): a refresh that begins (flag free) on a registered
disconnected session and whose embedded addClient fails at storage.save
propagates the error and releases the refreshing flag, but leaves the name
unregistered: the rejection of the promise returned by addClient bypasses
the inner catch, so the previous session is never re-inserted. -/
theorem refreshClient_lost_registration :
    (refreshClient false demoManager "a".toList none demoRefreshEnv).1
        = .error (.storage "db down".toList) ∧
    ((refreshClient false demoManager "a".toList none demoRefreshEnv).2.clients.lookup
        "a".toList) = none ∧
    (refreshClient false demoManager "a".toList none demoRefreshEnv).2.isRefreshing
        = false ∧
    demoManager.clients.lookup "a".toList = some demoClient ∧
    demoManager.isRefreshing = false := by
  decide

/-- C3: the tools and prompts aggregations contain exactly the entries of
the connected sessions, keyed by createMCPToolId for tools and by the
server name, a slash and the prompt name for prompts; sessions that are
disconnected or loading contribute nothing; the returned objects are the
fromEntries collapses of these association lists. -/
theorem aggregation_connected_only :
    ∀ (m : Manager),
      (∀ k v, (k, v) ∈ toolEntries m ↔
        ∃ c, c ∈ m.clients.map Prod.snd ∧ sessionStatus c = .connected ∧
          ∃ p, p ∈ c.tools ∧ k = createMCPToolId c.name p.1 ∧ v = p.2) ∧
      (∀ k e, (k, e) ∈ promptEntries m ↔
        ∃ c, c ∈ m.clients.map Prod.snd ∧ sessionStatus c = .connected ∧
          ∃ p, p ∈ c.promptInfo ∧ k = c.name ++ '/' :: p.name ∧
            e = { name := p.name, description := p.description,
                  arguments := p.arguments, serverName := c.name }) ∧
      managerTools m = fromEntries (toolEntries m) ∧
      managerPrompts m = fromEntries (promptEntries m) := by
  intro m
  refine ⟨?_, ?_, rfl, rfl⟩
  · intro k v
    unfold toolEntries
    simp only [List.mem_flatMap, List.mem_filter, List.mem_map, beq_iff_eq,
      Prod.mk.injEq]
    constructor
    · rintro ⟨c, ⟨hc, hconn⟩, p, hp, hk, hv⟩
      exact ⟨c, hc, hconn, p, hp, hk.symm, hv.symm⟩
    · rintro ⟨c, hc, hconn, p, hp, hk, hv⟩
      exact ⟨c, ⟨hc, hconn⟩, p, hp, hk.symm, hv.symm⟩
  · intro k e
    unfold promptEntries
    simp only [List.mem_flatMap, List.mem_filter, List.mem_map, beq_iff_eq,
      Prod.mk.injEq]
    constructor
    · rintro ⟨c, ⟨hc, hconn⟩, p, hp, hk, he⟩
      exact ⟨c, hc, hconn, p, hp, hk.symm, he.symm⟩
    · rintro ⟨c, hc, hconn, p, hp, hk, he⟩
      exact ⟨c, ⟨hc, hconn⟩, p, hp, hk.symm, he.symm⟩

theorem lastAttemptTime_snoc (log : List Attempt) (a : Attempt) :
    lastAttemptTime (log ++ [a]) = a.time := by
  unfold lastAttemptTime
  rw [List.getLast?_concat]

theorem lastAttemptTime_head (log : List Attempt) (b : Attempt)
    (rest : List Attempt) (hl : log.reverse = b :: rest) :
    lastAttemptTime log = b.time := by
  unfold lastAttemptTime
  rw [← List.head?_reverse, hl]
  rfl

theorem failStreak_snoc_raceOk (log : List Attempt) (a : Attempt)
    (h : a.preRaceFail = false) :
    failStreak (log ++ [a]).reverse = 0 := by
  rw [List.reverse_append]
  rcases hl : log.reverse with _ | ⟨b, rest⟩ <;> simp [failStreak, h]

theorem failStreak_snoc_small (log : List Attempt) (a : Attempt)
    (hpf : a.preRaceFail = true)
    (hgap : a.time - lastAttemptTime log ≤ 60000) :
    failStreak (log ++ [a]).reverse = failStreak log.reverse + 1 := by
  rw [List.reverse_append]
  rcases hl : log.reverse with _ | ⟨b, rest⟩
  · simp [failStreak, hpf]
  · have hb : lastAttemptTime log = b.time := lastAttemptTime_head log b rest hl
    rw [hb] at hgap
    simp [failStreak, hpf, hgap]

theorem failStreak_snoc_big (log : List Attempt) (a : Attempt)
    (hpf : a.preRaceFail = true)
    (hgap : ¬(a.time - lastAttemptTime log ≤ 60000)) :
    failStreak (log ++ [a]).reverse = 1 := by
  rw [List.reverse_append]
  rcases hl : log.reverse with _ | ⟨b, rest⟩
  · simp [failStreak, hpf]
  · have hb : lastAttemptTime log = b.time := lastAttemptTime_head log b rest hl
    rw [hb] at hgap
    simp [failStreak, hpf, hgap]

theorem connInv_init (nm : JStr) (cfg : ServerConfig)
    (opts : Option ClientOptions) :
    ConnInv (mkMCPClient nm cfg opts) [] :=
  ⟨rfl, rfl, by decide, rfl, fun _ => rfl⟩

theorem connInv_disc (s : SessState) (log : List Attempt) (env : DiscEnv)
    (h : ConnInv s log) : ConnInv (disconnect s env).state log := by
  obtain ⟨hl, ha, hb, ht, hc⟩ := h
  unfold disconnect
  by_cases hd : (!s.isConnected || !s.client) = true
  · rw [if_pos hd]
    exact ⟨rfl, ha, hb, ht, fun hcc => by simp at hcc⟩
  · rw [if_neg hd]
    have hcon : s.isConnected = true := by
      cases hI : s.isConnected
      · exact absurd (by simp [hI]) hd
      · rfl
    exact ⟨rfl, (hc hcon).symm, hb, ht, fun hcc => by simp at hcc⟩

theorem connectAttempt_basic (sseOnly : Bool) (s : SessState) (env : ConnectEnv) :
    (connectAttempt sseOnly s env).state.locked = false ∧
    (connectAttempt sseOnly s env).state.lastConnectionTime = env.now ∧
    ∃ pf, (connectAttempt sseOnly s env).att
        = some { time := env.now, preRaceFail := pf } ∧
      (pf = true →
        (connectAttempt sseOnly s env).state.connectionAttempts
            = s.connectionAttempts + 1 ∧
        (connectAttempt sseOnly s env).state.isConnected = false) ∧
      (pf = false →
        (connectAttempt sseOnly s env).state.connectionAttempts = 0) := by
  unfold connectAttempt
  rcases hbt : buildTransport sseOnly s.serverConfig with e | u
  · refine ⟨?_, ?_, true, ?_, ?_, ?_⟩ <;>
      simp [hbt, connFailRun, connCatch, unlockS]
  · rcases hr : env.race with _ | _ | m
    · rcases ht : env.listTools with msg | ts
      · refine ⟨?_, ?_, false, ?_, ?_, ?_⟩ <;>
          simp [hbt, hr, ht, connFailRun, connCatch, unlockS]
      · rcases hp : env.listPrompts with msg | ps
        · refine ⟨?_, ?_, false, ?_, ?_, ?_⟩ <;>
            simp [hbt, hr, ht, hp, connFailRun, connCatch, unlockS]
        · refine ⟨?_, ?_, false, ?_, ?_, ?_⟩ <;>
            simp [hbt, hr, ht, hp, connFailRun, connCatch, unlockS]
    · refine ⟨?_, ?_, true, ?_, ?_, ?_⟩ <;>
        simp [hbt, hr, connFailRun, connCatch, unlockS]
    · refine ⟨?_, ?_, true, ?_, ?_, ?_⟩ <;>
        simp [hbt, hr, connFailRun, connCatch, unlockS]

theorem connInv_conn (sseOnly : Bool) (s : SessState) (log : List Attempt)
    (env : ConnectEnv) (h : ConnInv s log) :
    ConnInv (connect sseOnly s env).state
      (log ++ (connect sseOnly s env).att.toList) := by
  obtain ⟨hl, ha, hb, ht, hc⟩ := h
  unfold ConnInv
  unfold connect
  by_cases h1 : (s.isConnected && s.client) = true
  · rw [if_pos h1]
    simp only [Option.toList_none, List.append_nil]
    exact ⟨hl, ha, hb, ht, hc⟩
  · rw [if_neg h1]
    rw [if_neg (show ¬(s.locked = true) by rw [hl]; exact Bool.false_ne_true)]
    unfold connectGate
    by_cases hres : env.now - s.lastConnectionTime > 60000
    · rw [if_pos hres]
      unfold connectGateCap
      rw [if_neg (show ¬((5:Nat) ≤ 0) by omega)]
      obtain ⟨cL, cT, pf, cAtt, cTrue, cFalse⟩ :=
        connectAttempt_basic sseOnly { s with connectionAttempts := 0 } env
      rw [cAtt]
      simp only [Option.toList_some]
      have hgap : ¬(env.now - lastAttemptTime log ≤ 60000) := by
        rw [← ht]; omega
      cases pf
      · refine ⟨cL, ?_, ?_, ?_, ?_⟩
        · rw [cFalse rfl, failStreak_snoc_raceOk log _ rfl]
        · rw [failStreak_snoc_raceOk log _ rfl]; omega
        · rw [cT, lastAttemptTime_snoc]
        · intro _
          rw [failStreak_snoc_raceOk log _ rfl]
      · refine ⟨cL, ?_, ?_, ?_, ?_⟩
        · rw [(cTrue rfl).1, failStreak_snoc_big log _ rfl hgap]
        · rw [failStreak_snoc_big log _ rfl hgap]; omega
        · rw [cT, lastAttemptTime_snoc]
        · intro hcc
          rw [(cTrue rfl).2] at hcc
          exact Bool.noConfusion hcc
    · rw [if_neg hres]
      unfold connectGateCap
      by_cases hcap : 5 ≤ s.connectionAttempts
      · rw [if_pos hcap]
        simp only [Option.toList_none, List.append_nil]
        exact ⟨hl, ha, hb, ht, hc⟩
      · rw [if_neg hcap]
        obtain ⟨cL, cT, pf, cAtt, cTrue, cFalse⟩ :=
          connectAttempt_basic sseOnly s env
        rw [cAtt]
        simp only [Option.toList_some]
        have hgap : env.now - lastAttemptTime log ≤ 60000 := by
          rw [← ht]; omega
        cases pf
        · refine ⟨cL, ?_, ?_, ?_, ?_⟩
          · rw [cFalse rfl, failStreak_snoc_raceOk log _ rfl]
          · rw [failStreak_snoc_raceOk log _ rfl]; omega
          · rw [cT, lastAttemptTime_snoc]
          · intro _
            rw [failStreak_snoc_raceOk log _ rfl]
        · refine ⟨cL, ?_, ?_, ?_, ?_⟩
          · rw [(cTrue rfl).1, failStreak_snoc_small log _ rfl hgap, ← ha]
          · rw [failStreak_snoc_small log _ rfl hgap]; omega
          · rw [cT, lastAttemptTime_snoc]
          · intro hcc
            rw [(cTrue rfl).2] at hcc
            exact Bool.noConfusion hcc

theorem runTrace_invariant (sseOnly : Bool) (nm : JStr) (cfg : ServerConfig)
    (opts : Option ClientOptions) (evs : List Ev) :
    ConnInv (runTrace sseOnly (mkMCPClient nm cfg opts) evs).1
      (runTrace sseOnly (mkMCPClient nm cfg opts) evs).2 := by
  induction evs using List.reverseRecOn with
  | nil => exact connInv_init nm cfg opts
  | append_singleton evs e ih =>
      have hstep : runTrace sseOnly (mkMCPClient nm cfg opts) (evs ++ [e])
          = stepEv sseOnly (runTrace sseOnly (mkMCPClient nm cfg opts) evs) e := by
        unfold runTrace
        rw [List.foldl_append]
        rfl
      rw [hstep]
      cases e with
      | conn cenv =>
          unfold stepEv
          exact connInv_conn sseOnly _ _ cenv ih
      | disc denv =>
          unfold stepEv
          exact connInv_disc _ _ denv ih

theorem connectAttempt_no_throw (sseOnly : Bool) (s : SessState)
    (env : ConnectEnv) :
    ∀ e, (connectAttempt sseOnly s env).outcome ≠ ConnectOutcome.threw e := by
  intro e
  unfold connectAttempt
  rcases hbt : buildTransport sseOnly s.serverConfig with er | u
  · simp [hbt, connFailRun, connCatch, unlockS]
  · rcases hr : env.race with _ | _ | m
    · rcases ht : env.listTools with msg | ts
      · simp [hbt, hr, ht, connFailRun, connCatch, unlockS]
      · rcases hp : env.listPrompts with msg | ps <;>
          simp [hbt, hr, ht, hp, unlockS]
    · simp [hbt, hr, connFailRun, connCatch, unlockS]
    · simp [hbt, hr, connFailRun, connCatch, unlockS]

theorem connectAttempt_fail (sseOnly : Bool) (s : SessState) (env : ConnectEnv)
    (e2 : ConnErr) (hf : connFailure sseOnly s.serverConfig env = some e2) :
    (connectAttempt sseOnly s env).state.isConnected = false ∧
    (connectAttempt sseOnly s env).state.error = some e2 ∧
    (connectAttempt sseOnly s env).state.lastConnectionError = some e2 ∧
    (connectAttempt sseOnly s env).state.locked = false ∧
    (connectAttempt sseOnly s env).outcome
        = .returned (connectAttempt sseOnly s env).state.client := by
  unfold connFailure at hf
  unfold connectAttempt
  rcases hbt : buildTransport sseOnly s.serverConfig with er | u
  · rw [hbt] at hf
    simp at hf
    subst hf
    refine ⟨?_, ?_, ?_, ?_, ?_⟩ <;>
      simp [hbt, connFailRun, connCatch, unlockS]
  · rw [hbt] at hf
    rcases hr : env.race with _ | _ | m <;> rw [hr] at hf
    · rcases ht : env.listTools with msg | ts <;> rw [ht] at hf
      · simp at hf
        subst hf
        refine ⟨?_, ?_, ?_, ?_, ?_⟩ <;>
          simp [hbt, hr, ht, connFailRun, connCatch, unlockS]
      · simp at hf
    · simp at hf
      subst hf
      refine ⟨?_, ?_, ?_, ?_, ?_⟩ <;>
        simp [hbt, hr, connFailRun, connCatch, unlockS]
    · simp at hf
      subst hf
      refine ⟨?_, ?_, ?_, ?_, ?_⟩ <;>
        simp [hbt, hr, connFailRun, connCatch, unlockS]

theorem connect_cap_spec (sseOnly : Bool) (s : SessState) (log : List Attempt)
    (env : ConnectEnv) (hInv : ConnInv s log)
    (hnc : ¬(s.isConnected = true ∧ s.client = true)) :
    ((∃ e, (connect sseOnly s env).outcome = .threw e) ↔
      (5 ≤ failStreak log.reverse ∧ env.now - lastAttemptTime log ≤ 60000)) ∧
    (∀ e, (connect sseOnly s env).outcome = .threw e →
      e = .capExhausted s.lastConnectionError ∧
      (connect sseOnly s env).effs = [] ∧
      (connect sseOnly s env).state = s) ∧
    (∀ e2, connFailure sseOnly s.serverConfig env = some e2 →
      ¬(5 ≤ failStreak log.reverse ∧ env.now - lastAttemptTime log ≤ 60000) →
      (connect sseOnly s env).state.isConnected = false ∧
      (connect sseOnly s env).state.error = some e2 ∧
      (connect sseOnly s env).state.lastConnectionError = some e2 ∧
      (connect sseOnly s env).state.locked = false ∧
      (connect sseOnly s env).outcome
          = .returned (connect sseOnly s env).state.client) := by
  obtain ⟨hl, ha, hb, ht, hc⟩ := hInv
  have h1 : ¬((s.isConnected && s.client) = true) := by
    simpa [Bool.and_eq_true] using hnc
  unfold connect
  rw [if_neg h1]
  rw [if_neg (show ¬(s.locked = true) by rw [hl]; exact Bool.false_ne_true)]
  unfold connectGate
  by_cases hres : env.now - s.lastConnectionTime > 60000
  · rw [if_pos hres]
    unfold connectGateCap
    rw [if_neg (show ¬((5:Nat) ≤ 0) by omega)]
    have hgap : ¬(env.now - lastAttemptTime log ≤ 60000) := by
      rw [← ht]; omega
    refine ⟨?_, ?_, ?_⟩
    · constructor
      · rintro ⟨e, he⟩
        exact absurd he (connectAttempt_no_throw sseOnly _ env e)
      · rintro ⟨_, hg⟩
        exact absurd hg hgap
    · intro e he
      exact absurd he (connectAttempt_no_throw sseOnly _ env e)
    · intro e2 hf _
      exact connectAttempt_fail sseOnly _ env e2 hf
  · rw [if_neg hres]
    unfold connectGateCap
    have hgap : env.now - lastAttemptTime log ≤ 60000 := by
      rw [← ht]; omega
    by_cases hcap : 5 ≤ s.connectionAttempts
    · rw [if_pos hcap]
      refine ⟨?_, ?_, ?_⟩
      · constructor
        · intro _
          exact ⟨by rw [← ha]; exact hcap, hgap⟩
        · intro _
          exact ⟨.capExhausted s.lastConnectionError, rfl⟩
      · intro e he
        have he2 := ConnectOutcome.threw.inj he
        exact ⟨he2.symm, rfl, rfl⟩
      · intro e2 _ hn
        exact absurd ⟨by rw [← ha]; exact hcap, hgap⟩ hn
    · rw [if_neg hcap]
      refine ⟨?_, ?_, ?_⟩
      · constructor
        · rintro ⟨e, he⟩
          exact absurd he (connectAttempt_no_throw sseOnly _ env e)
        · rintro ⟨hstreak, _⟩
          rw [← ha] at hstreak
          exact absurd hstreak hcap
      · intro e he
        exact absurd he (connectAttempt_no_throw sseOnly _ env e)
      · intro e2 hf _
        exact connectAttempt_fail sseOnly _ env e2 hf

/-- C1 (amended): over every session history, a connect call on a session
that is not already connected (the lock is free between operations) throws
exactly when at least five consecutive connection attempts have already
failed before the transport-level connection was established, with no
intervening transport-level success and no more-than-60-seconds gap
between attempts — an attempt that reaches the server and then fails while
listing tools resets the attempt counter and does not count toward the cap.
When it throws it surfaces the last recorded connection error, attempts no
transport open (no effects at all) and changes no state; and whenever the
environment makes the connect sequence fail (transport construction error,
30-second connect timeout, transport error, or tool-list failure) a
non-throwing call marks the session disconnected, stores the error, and
returns the cached handle instead of throwing. -/
theorem connect_attempt_cap (sseOnly : Bool) (nm : JStr) (cfg : ServerConfig)
    (opts : Option ClientOptions) (evs : List Ev) (env : ConnectEnv)
    (hnc : ¬((runTrace sseOnly (mkMCPClient nm cfg opts) evs).1.isConnected = true ∧
           (runTrace sseOnly (mkMCPClient nm cfg opts) evs).1.client = true)) :
    ((∃ e, (connect sseOnly (runTrace sseOnly (mkMCPClient nm cfg opts) evs).1
          env).outcome = .threw e) ↔
      (5 ≤ failStreak (runTrace sseOnly (mkMCPClient nm cfg opts) evs).2.reverse ∧
       env.now - lastAttemptTime (runTrace sseOnly (mkMCPClient nm cfg opts) evs).2
          ≤ 60000)) ∧
    (∀ e, (connect sseOnly (runTrace sseOnly (mkMCPClient nm cfg opts) evs).1
          env).outcome = .threw e →
      e = .capExhausted
            (runTrace sseOnly (mkMCPClient nm cfg opts) evs).1.lastConnectionError ∧
      (connect sseOnly (runTrace sseOnly (mkMCPClient nm cfg opts) evs).1
          env).effs = [] ∧
      (connect sseOnly (runTrace sseOnly (mkMCPClient nm cfg opts) evs).1
          env).state = (runTrace sseOnly (mkMCPClient nm cfg opts) evs).1) ∧
    (∀ e2, connFailure sseOnly
          (runTrace sseOnly (mkMCPClient nm cfg opts) evs).1.serverConfig env
          = some e2 →
      ¬(5 ≤ failStreak (runTrace sseOnly (mkMCPClient nm cfg opts) evs).2.reverse ∧
        env.now - lastAttemptTime (runTrace sseOnly (mkMCPClient nm cfg opts) evs).2
          ≤ 60000) →
      (connect sseOnly (runTrace sseOnly (mkMCPClient nm cfg opts) evs).1
          env).state.isConnected = false ∧
      (connect sseOnly (runTrace sseOnly (mkMCPClient nm cfg opts) evs).1
          env).state.error = some e2 ∧
      (connect sseOnly (runTrace sseOnly (mkMCPClient nm cfg opts) evs).1
          env).state.lastConnectionError = some e2 ∧
      (connect sseOnly (runTrace sseOnly (mkMCPClient nm cfg opts) evs).1
          env).state.locked = false ∧
      (connect sseOnly (runTrace sseOnly (mkMCPClient nm cfg opts) evs).1
          env).outcome
        = .returned (connect sseOnly
            (runTrace sseOnly (mkMCPClient nm cfg opts) evs).1
            env).state.client) :=
  connect_cap_spec sseOnly _ _ env (runTrace_invariant sseOnly nm cfg opts evs) hnc

/-- Witness for C1 (amended) at a concrete input: the empty history and a
timing-out sixth environment. -/
theorem connect_attempt_cap_witness :
    (∃ e, (connect false (runTrace false (mkMCPClient "a".toList demoCfg none) []).1
        sixthEnv).outcome = .threw e) ↔
      (5 ≤ failStreak
          (runTrace false (mkMCPClient "a".toList demoCfg none) []).2.reverse ∧
       sixthEnv.now - lastAttemptTime
          (runTrace false (mkMCPClient "a".toList demoCfg none) []).2 ≤ 60000) :=
  (connect_attempt_cap false "a".toList demoCfg none [] sixthEnv (by decide)).1

/-- C1 counterexample: five consecutive connect attempts ten seconds apart,
each of which fails (the session ends disconnected with the tool-list error
stored), with no intervening success; the claim requires the sixth call to
throw without a transport open, but it proceeds to open a transport and
returns without throwing, because each tool-list failure happened after the
transport race had already reset the attempt counter. -/
theorem connect_cap_counterexample :
    (runTrace false demoClient (fiveToolListFailures.take 1)).1.isConnected = false ∧
    (runTrace false demoClient (fiveToolListFailures.take 1)).1.error
        = some (ConnErr.toolList "boom".toList) ∧
    (runTrace false demoClient (fiveToolListFailures.take 2)).1.isConnected = false ∧
    (runTrace false demoClient (fiveToolListFailures.take 2)).1.error
        = some (ConnErr.toolList "boom".toList) ∧
    (runTrace false demoClient (fiveToolListFailures.take 3)).1.isConnected = false ∧
    (runTrace false demoClient (fiveToolListFailures.take 3)).1.error
        = some (ConnErr.toolList "boom".toList) ∧
    (runTrace false demoClient (fiveToolListFailures.take 4)).1.isConnected = false ∧
    (runTrace false demoClient (fiveToolListFailures.take 4)).1.error
        = some (ConnErr.toolList "boom".toList) ∧
    (runTrace false demoClient fiveToolListFailures).1.isConnected = false ∧
    (runTrace false demoClient fiveToolListFailures).1.error
        = some (ConnErr.toolList "boom".toList) ∧
    (connect false (runTrace false demoClient fiveToolListFailures).1
        sixthEnv).outcome = .returned true ∧
    Eff.transportOpen ∈
      (connect false (runTrace false demoClient fiveToolListFailures).1
        sixthEnv).effs := by
  decide

end MCPSpec
